import Mathlib

/-!
# Verification of the task-management API services

Shallow embedding of the NestJS task-management repository:
`UsersService`, `TasksService`, the repository layer (an in-memory table
standing for the TypeORM/Postgres store), and the credential hasher
(`PasswordService`, which wraps an external one-way hash primitive and is
therefore modelled as a parameter with its contract stated as hypotheses).

The database is modelled as a `Store` holding the `users` and `tasks`
tables together with the id sequences; each service operation is a pure
function from a `Store` (and its arguments) to an `Except AppError`
result, returning the successor store where the source performs a write.
Thrown `NotFoundException` / `ForbiddenException` become `AppError`
values.
-/

/-- The error classes thrown by the services:
`NotFoundException` and `ForbiddenException` from `@nestjs/common`,
each carrying its human-readable message. -/
inductive AppError where
  | notFound (msg : String)
  | forbidden (msg : String)
deriving DecidableEq, Repr

/-- The `User` entity (interface `IUser`, minus the system-managed
`createdAt`/`updatedAt` timestamps, which no claim concerns):
id, email, password (stored form), firstName, lastName. -/
structure User where
  id : Nat
  email : String
  password : String
  firstName : String
  lastName : String
deriving DecidableEq, Repr

/-- The `Task` entity as stored: id, title, description and the `userId`
foreign key column. The `user` relation is not a stored column; it is
loaded on demand (see `loadUserRelation`). -/
structure TaskRow where
  id : Nat
  title : String
  description : String
  userId : Nat
deriving DecidableEq, Repr

/-- A `Task` entity as returned by a repository read that asked for
`relations: [\x7b'user'\x7d]`: the stored columns plus the loaded owning
`User` entity (`none` when the relation found no matching row). -/
structure TaskEntity where
  id : Nat
  title : String
  description : String
  userId : Nat
  user : Option User
deriving DecidableEq, Repr

/-- `CreateUserDto`: email, password, firstName, lastName
(all required). -/
structure CreateUserDto where
  email : String
  password : String
  firstName : String
  lastName : String
deriving DecidableEq, Repr

/-- `UpdateUserDto = PartialType(CreateUserDto)`: every field optional;
`none` models a field absent from the request body. -/
structure UpdateUserDto where
  email : Option String := none
  password : Option String := none
  firstName : Option String := none
  lastName : Option String := none
deriving DecidableEq, Repr

/-- `CreateTaskDto`: title and description (both required). -/
structure CreateTaskDto where
  title : String
  description : String
deriving DecidableEq, Repr

/-- The persistent state: the two tables plus the id sequences the
database uses to generate primary keys on insert. -/
structure Store where
  users : List User
  tasks : List TaskRow
  nextUserId : Nat := 1
  nextTaskId : Nat := 1
deriving DecidableEq, Repr

/-- `PasswordService` wraps the external `bcrypt` primitive; the model
takes the primitive as a parameter.  Its contract (one-way, non-identity
hash; `compare` accepts exactly what `hash` produced) is assumed where a
claim needs it. -/
structure Hasher where
  hash : String → String
  compare : String → String → Bool

/-! ## Repository layer

TypeORM repository calls used by the services, over the in-memory
tables: `findOne \x7bwhere: \x7bid\x7d\x7d` is first-match lookup by
primary key; `create` + `save` on an entity without an id inserts a row
under the next generated id; `save` on an entity carrying an id updates
the row with that primary key; `remove(entity)` deletes the row with the
entity's id. -/

/-- `usersRepository.findOne(\x7b where: \x7b id \x7d \x7d)`. -/
def usersFindById (users : List User) (id : Nat) : Option User :=
  users.find? (fun u => u.id == id)

/-- `tasksRepository.findOne(\x7b where: \x7b id \x7d, ... \x7d)` on the
stored rows (relation loading is applied separately). -/
def tasksFindById (tasks : List TaskRow) (id : Nat) : Option TaskRow :=
  tasks.find? (fun t => t.id == id)

/-- Loading `relations: [\x7b'user'\x7d]` for a task row: joins the full
owning `User` entity by the `userId` foreign key. -/
def loadUserRelation (users : List User) (t : TaskRow) : TaskEntity :=
  { id := t.id, title := t.title, description := t.description,
    userId := t.userId, user := usersFindById users t.userId }

/-- `usersRepository.create(\x7b...dto, password: hashed\x7d)` followed by
`save`: inserts a new `User` row under the generated id and returns the
stored entity together with the successor store. -/
def usersInsert (s : Store) (email password firstName lastName : String) :
    User × Store :=
  let u : User := { id := s.nextUserId, email := email, password := password,
                    firstName := firstName, lastName := lastName }
  (u, { s with users := s.users ++ [u], nextUserId := s.nextUserId + 1 })

/-- `usersRepository.save(entity)` on an entity that carries an id:
updates the row with that primary key (TypeORM upsert by primary key;
inserts if the id is absent, which the service paths never hit because
the entity was just loaded). -/
def usersSave (s : Store) (u : User) : User × Store :=
  if s.users.any (fun v => v.id == u.id) then
    (u, { s with users := s.users.map (fun v => if v.id == u.id then u else v) })
  else
    (u, { s with users := s.users ++ [u] })

/-- `usersRepository.remove(entity)`: deletes the row with the entity's
id and returns the entity's last-known state. -/
def usersDelete (s : Store) (u : User) : User × Store :=
  (u, { s with users := s.users.filter (fun v => v.id != u.id) })

/-- `tasksRepository.create(\x7b...dto, userId\x7d)` followed by `save`:
inserts a new `Task` row under the generated id and returns the stored
entity together with the successor store. -/
def tasksInsert (s : Store) (title description : String) (userId : Nat) :
    TaskRow × Store :=
  let t : TaskRow := { id := s.nextTaskId, title := title,
                       description := description, userId := userId }
  (t, { s with tasks := s.tasks ++ [t], nextTaskId := s.nextTaskId + 1 })

/-- `tasksRepository.findByUserId(userId)`:
`find(\x7b where: \x7b userId \x7d, relations: ['user'] \x7d)` — all rows
whose `userId` column equals the argument, each with the `user` relation
loaded. -/
def tasksFindByUserId (s : Store) (userId : Nat) : List TaskEntity :=
  (s.tasks.filter (fun t => t.userId == userId)).map (loadUserRelation s.users)

/-- `tasksRepository.remove(entity)`: deletes the row with the entity's
id and returns the entity's last-known state. -/
def tasksDelete (s : Store) (t : TaskEntity) : TaskEntity × Store :=
  (t, { s with tasks := s.tasks.filter (fun r => r.id != t.id) })

/-! ## UsersService -/

/-- `UsersService.findOne(id)`: repository lookup by id; throws
`NotFoundException` with a message naming the missing id when absent. -/
def UsersService.findOne (s : Store) (id : Nat) : Except AppError User :=
  match usersFindById s.users id with
  | some user => .ok user
  | none => .error (.notFound s!"User #{id} not found")

/-- `UsersService.create(createUserDto)`: hashes the submitted password
via the credential hasher, then persists the dto's fields with the hash
in place of the plaintext; returns the stored entity. -/
def UsersService.create (h : Hasher) (s : Store) (dto : CreateUserDto) :
    User × Store :=
  let hashedPassword := h.hash dto.password
  usersInsert s dto.email hashedPassword dto.firstName dto.lastName

/-- The spread `\x7b ...user, ...updateUserDto \x7d`: every field present
in the dto overrides the loaded entity's field; the id (absent from the
dto) is kept. -/
def mergeUser (u : User) (dto : UpdateUserDto) : User :=
  { id := u.id,
    email := dto.email.getD u.email,
    password := dto.password.getD u.password,
    firstName := dto.firstName.getD u.firstName,
    lastName := dto.lastName.getD u.lastName }

/-- The source's `if (updateUserDto.password) \x7b ... \x7d` guard:
JavaScript truthiness, so the re-hash happens exactly when the password
field is present and is not the empty string. -/
def hashDtoPassword (h : Hasher) (dto : UpdateUserDto) : UpdateUserDto :=
  match dto.password with
  | some p => if p ≠ "" then { dto with password := some (h.hash p) } else dto
  | none => dto

/-- `UsersService.update(id, updateUserDto)`: loads the existing user via
`findOne` (propagating its NotFound), re-hashes the dto's password when
that field is truthy, then saves the spread of the dto over the loaded
entity. -/
def UsersService.update (h : Hasher) (s : Store) (id : Nat)
    (dto : UpdateUserDto) : Except AppError (User × Store) := do
  let user ← UsersService.findOne s id
  let dto := hashDtoPassword h dto
  return usersSave s (mergeUser user dto)

/-- `UsersService.remove(id)`: loads via `findOne` (propagating its
NotFound), then deletes and returns the deleted entity. -/
def UsersService.remove (s : Store) (id : Nat) :
    Except AppError (User × Store) := do
  let user ← UsersService.findOne s id
  return usersDelete s user

/-! ## TasksService -/

/-- `TasksService.findOne(id, userId)`: loads the task (with its `user`
relation) by id; throws `NotFoundException` when no such task exists;
otherwise throws `ForbiddenException` when the task's `userId` differs
from the caller's; otherwise returns the task.  Existence is checked
before ownership. -/
def TasksService.findOne (s : Store) (id userId : Nat) :
    Except AppError TaskEntity :=
  match tasksFindById s.tasks id with
  | none => .error (.notFound s!"Task #{id} not found")
  | some row =>
    let task := loadUserRelation s.users row
    if task.userId ≠ userId then
      .error (.forbidden "You can only access your own tasks")
    else
      .ok task

/-- `TasksService.create(userId, createTaskDto)`: resolves the owner via
`UsersService.findOne` (propagating its NotFound), then persists a new
task bound to the resolved owner's id and returns the stored entity. -/
def TasksService.create (s : Store) (userId : Nat) (dto : CreateTaskDto) :
    Except AppError (TaskRow × Store) := do
  let user ← UsersService.findOne s userId
  return tasksInsert s dto.title dto.description user.id

/-- `TasksService.findAll(userId)`: delegates to
`tasksRepository.findByUserId`. -/
def TasksService.findAll (s : Store) (userId : Nat) : List TaskEntity :=
  tasksFindByUserId s userId

/-- `TasksService.remove(id, userId)`: performs `findOne(id, userId)`
(propagating its NotFound/Forbidden), then deletes the task and returns
its last-known state. -/
def TasksService.remove (s : Store) (id userId : Nat) :
    Except AppError (TaskEntity × Store) := do
  let task ← TasksService.findOne s id userId
  return tasksDelete s task

/-- The store a (possibly failing) state-changing operation leaves
behind: the successor store on success, the unchanged input store when
the operation threw (the exception aborts the request before any
write). -/
def stateAfter {α : Type} (s : Store) (r : Except AppError (α × Store)) :
    Store :=
  match r with
  | .ok (_, s') => s'
  | .error _ => s

/-! ## Concrete instances used by witnesses and counterexamples -/

/-- A concrete stand-in for the external bcrypt primitive, used to
instantiate witnesses: prefixes the bcrypt format marker to the
plaintext, so it never returns its input and `compare` accepts exactly
what `hash` produced. -/
def demoHasher : Hasher :=
  { hash := fun p => "$2b$10$" ++ p,
    compare := fun p hp => hp == "$2b$10$" ++ p }

theorem demoHasher_hash_ne (p : String) : demoHasher.hash p ≠ p := by
  intro hEq
  have hLen := congrArg String.length hEq
  rw [show demoHasher.hash p = "$2b$10$" ++ p from rfl,
    String.length_append] at hLen
  have h7 : ("$2b$10$" : String).length = 7 := rfl
  omega

theorem demoHasher_compare_hash (p : String) :
    demoHasher.compare p (demoHasher.hash p) = true := by
  simp [demoHasher]

/-- The store of a freshly created database: both tables empty. -/
def emptyStore : Store := { users := [], tasks := [] }

/-- The registration input used by the concrete scenarios. -/
def cDto : CreateUserDto :=
  { email := "a@b.com", password := "secret1", firstName := "A", lastName := "B" }

/-! ## C1: TasksService.findOne error semantics -/

/-- **C1**: `TasksService.findOne(id, ownerId)` fails with NotFound when
no task with that id exists — for every caller, since existence is
checked before ownership — fails with Forbidden when the task exists but
its `userId` differs from the caller's, and returns the task (with its
`user` relation loaded) otherwise. -/
theorem taskFindOne_notFound_forbidden_ok (s : Store) (id userId : Nat) :
    (tasksFindById s.tasks id = none →
      TasksService.findOne s id userId =
        .error (.notFound s!"Task #{id} not found")) ∧
    (∀ row, tasksFindById s.tasks id = some row → row.userId ≠ userId →
      TasksService.findOne s id userId =
        .error (.forbidden "You can only access your own tasks")) ∧
    (∀ row, tasksFindById s.tasks id = some row → row.userId = userId →
      TasksService.findOne s id userId = .ok (loadUserRelation s.users row)) := by
  refine ⟨fun hn => ?_, fun row hr hne => ?_, fun row hr he => ?_⟩
  · simp [TasksService.findOne, hn]
  · simp [TasksService.findOne, hr, loadUserRelation, hne]
  · simp [TasksService.findOne, hr, loadUserRelation, he]

/-- The user of the single-owner demo store. -/
def user7 : User :=
  { id := 7, email := "u7@x.com", password := "$2b$10$pw7",
    firstName := "U", lastName := "Seven" }

/-- The stored row of the task created under owner 7 in the round-trip
scenario. -/
def milkRow : TaskRow :=
  { id := 1, title := "Buy milk", description := "2%  and whole", userId := 7 }

/-- A store holding user 7 and their task. -/
def store7 : Store :=
  { users := [user7], tasks := [milkRow], nextUserId := 8, nextTaskId := 2 }

theorem taskFindOne_notFound_forbidden_ok_witness :
    TasksService.findOne store7 99 7 =
      .error (.notFound "Task #99 not found") ∧
    TasksService.findOne store7 1 8 =
      .error (.forbidden "You can only access your own tasks") ∧
    TasksService.findOne store7 1 7 = .ok (loadUserRelation store7.users milkRow) :=
  ⟨(taskFindOne_notFound_forbidden_ok store7 99 7).1 rfl,
   (taskFindOne_notFound_forbidden_ok store7 1 8).2.1 milkRow rfl (by decide),
   (taskFindOne_notFound_forbidden_ok store7 1 7).2.2 milkRow rfl rfl⟩

/-! ## C2: UsersService.create hashes the password -/

/-- **C2**: for every creation input, `UsersService.create` persists the
submitted fields with the credential hasher's hash in place of the
plaintext password; given the hasher's contract (the hash never equals
its input, and `compare` accepts what `hash` produced), the stored
password differs from the plaintext and `compare(plaintext, stored)`
returns true. -/
theorem userCreate_stores_hash (h : Hasher) (s : Store) (dto : CreateUserDto)
    (hOneWay : ∀ p, h.hash p ≠ p)
    (hRound : ∀ p, h.compare p (h.hash p) = true) :
    (UsersService.create h s dto).1.password = h.hash dto.password ∧
    (UsersService.create h s dto).1 ∈ (UsersService.create h s dto).2.users ∧
    (UsersService.create h s dto).1.password ≠ dto.password ∧
    h.compare dto.password (UsersService.create h s dto).1.password = true := by
  refine ⟨rfl, ?_, ?_, ?_⟩
  · simp [UsersService.create, usersInsert]
  · simpa using hOneWay dto.password
  · simpa using hRound dto.password

theorem userCreate_stores_hash_witness :
    (UsersService.create demoHasher emptyStore cDto).1.password =
      demoHasher.hash cDto.password ∧
    (UsersService.create demoHasher emptyStore cDto).1 ∈
      (UsersService.create demoHasher emptyStore cDto).2.users ∧
    (UsersService.create demoHasher emptyStore cDto).1.password ≠ cDto.password ∧
    demoHasher.compare cDto.password
      (UsersService.create demoHasher emptyStore cDto).1.password = true :=
  userCreate_stores_hash demoHasher emptyStore cDto
    demoHasher_hash_ne demoHasher_compare_hash

/-! ## C5: UsersService on a missing id -/

/-- **C5**: when no user with id `i` exists, `UsersService.findOne`,
`remove` and `update` all fail with the NotFound error whose message
names the missing id, and the failing `remove`/`update` leave the store
unchanged. -/
theorem userOps_missing_id_notFound (h : Hasher) (s : Store) (i : Nat)
    (dto : UpdateUserDto) (habs : usersFindById s.users i = none) :
    UsersService.findOne s i = .error (.notFound s!"User #{i} not found") ∧
    UsersService.remove s i = .error (.notFound s!"User #{i} not found") ∧
    UsersService.update h s i dto =
      .error (.notFound s!"User #{i} not found") ∧
    stateAfter s (UsersService.remove s i) = s ∧
    stateAfter s (UsersService.update h s i dto) = s := by
  have h1 : UsersService.findOne s i = .error (.notFound s!"User #{i} not found") := by
    simp [UsersService.findOne, habs]
  refine ⟨h1, ?_, ?_, ?_, ?_⟩ <;>
    simp [UsersService.remove, UsersService.update, h1, stateAfter]

theorem userOps_missing_id_notFound_witness :
    UsersService.findOne emptyStore 42 =
      .error (.notFound "User #42 not found") ∧
    UsersService.remove emptyStore 42 =
      .error (.notFound "User #42 not found") ∧
    UsersService.update demoHasher emptyStore 42 {} =
      .error (.notFound "User #42 not found") ∧
    stateAfter emptyStore (UsersService.remove emptyStore 42) = emptyStore ∧
    stateAfter emptyStore (UsersService.update demoHasher emptyStore 42 {}) =
      emptyStore :=
  userOps_missing_id_notFound demoHasher emptyStore 42 {} rfl

/-! ## C6: TasksService.create resolves the owner first -/

/-- **C6**: `TasksService.create(ownerId, input)` resolves the owner via
`UsersService.findOne`, propagating its NotFound (and persisting
nothing) when no user with id `ownerId` exists; otherwise it persists a
new task whose `userId` equals `ownerId`, carrying the input's title and
description, and the new task's `userId` references the existing owner. -/
theorem taskCreate_owner_resolved (s : Store) (ownerId : Nat)
    (dto : CreateTaskDto) :
    (usersFindById s.users ownerId = none →
      TasksService.create s ownerId dto =
        .error (.notFound s!"User #{ownerId} not found") ∧
      stateAfter s (TasksService.create s ownerId dto) = s) ∧
    (∀ u, usersFindById s.users ownerId = some u →
      ∃ t s', TasksService.create s ownerId dto = .ok (t, s') ∧
        t.userId = ownerId ∧ t.title = dto.title ∧
        t.description = dto.description ∧ t ∈ s'.tasks ∧
        s'.users = s.users ∧ usersFindById s'.users t.userId = some u) := by
  constructor
  · intro habs
    have h1 : UsersService.findOne s ownerId =
        .error (.notFound s!"User #{ownerId} not found") := by
      simp [UsersService.findOne, habs]
    constructor <;> simp [TasksService.create, h1, stateAfter]
  · intro u hu
    have huid : u.id = ownerId := by
      simpa [usersFindById] using List.find?_some hu
    have hok : UsersService.findOne s ownerId = .ok u := by
      simp [UsersService.findOne, hu]
    refine ⟨⟨s.nextTaskId, dto.title, dto.description, u.id⟩,
      { s with tasks := s.tasks ++ [⟨s.nextTaskId, dto.title, dto.description, u.id⟩],
               nextTaskId := s.nextTaskId + 1 },
      ?_, huid, rfl, rfl, ?_, rfl, ?_⟩
    · simp [TasksService.create, hok, tasksInsert]
    · simp
    · simpa [huid] using hu

/-- The round-trip task creation input. -/
def milkDto : CreateTaskDto := { title := "Buy milk", description := "2%  and whole" }

theorem taskCreate_owner_resolved_witness :
    TasksService.create emptyStore 7 milkDto =
      .error (.notFound "User #7 not found") ∧
    stateAfter emptyStore (TasksService.create emptyStore 7 milkDto) =
      emptyStore :=
  (taskCreate_owner_resolved emptyStore 7 milkDto).1 rfl

/-! ## C7: TasksService.findAll returns exactly the owner's tasks -/

/-- **C7**: `TasksService.findAll(ownerId)` returns exactly the tasks
whose `userId` equals `ownerId` (each with its `user` relation loaded):
every returned task has `userId = ownerId`, and a task is returned iff it
is the relation-loaded image of a stored row with that owner. -/
theorem taskFindAll_exactly_owner (s : Store) (ownerId : Nat) :
    (∀ t ∈ TasksService.findAll s ownerId, t.userId = ownerId) ∧
    (∀ t, t ∈ TasksService.findAll s ownerId ↔
      ∃ row ∈ s.tasks, row.userId = ownerId ∧
        loadUserRelation s.users row = t) := by
  constructor
  · intro t ht
    simp [TasksService.findAll, tasksFindByUserId, List.mem_map,
      List.mem_filter] at ht
    obtain ⟨row, ⟨hrow, hrid⟩, heq⟩ := ht
    subst heq
    simpa [loadUserRelation] using hrid
  · intro t
    simp [TasksService.findAll, tasksFindByUserId, List.mem_map,
      List.mem_filter, and_assoc]

theorem taskFindAll_exactly_owner_witness :
    loadUserRelation store7.users milkRow ∈ TasksService.findAll store7 7 ∧
    loadUserRelation store7.users milkRow ∉ TasksService.findAll store7 8 := by
  constructor
  · exact ((taskFindAll_exactly_owner store7 7).2 _).mpr
      ⟨milkRow, by simp [store7], rfl, rfl⟩
  · intro hmem
    obtain ⟨row, hrow, huid, _⟩ :=
      ((taskFindAll_exactly_owner store7 8).2 _).mp hmem
    have hr : row = milkRow := by simpa [store7] using hrow
    rw [hr] at huid
    exact absurd huid (by decide)

/-! ## C8: TasksService.remove inherits findOne's semantics -/

/-- **C8**: `TasksService.remove(id, ownerId)` first performs
`findOne(id, ownerId)` and propagates any of its errors unchanged (in
particular a non-existent id fails with NotFound for every caller), with
the store untouched on error; on success it returns the entity
`findOne` loaded and deletes exactly the rows bearing that id, leaving
the users table unchanged. -/
theorem taskRemove_inherits_findOne (s : Store) (id userId : Nat) :
    (∀ e, TasksService.findOne s id userId = .error e →
      TasksService.remove s id userId = .error e ∧
      stateAfter s (TasksService.remove s id userId) = s) ∧
    (tasksFindById s.tasks id = none →
      TasksService.remove s id userId =
        .error (.notFound s!"Task #{id} not found")) ∧
    (∀ t, TasksService.findOne s id userId = .ok t →
      ∃ s', TasksService.remove s id userId = .ok (t, s') ∧
        tasksFindById s'.tasks id = none ∧
        (∀ r, r ∈ s'.tasks ↔ r ∈ s.tasks ∧ r.id ≠ id) ∧
        s'.users = s.users) := by
  refine ⟨fun e he => ?_, fun hn => ?_, fun t ht => ?_⟩
  · constructor <;> simp [TasksService.remove, he, stateAfter]
  · have he : TasksService.findOne s id userId =
        .error (.notFound s!"Task #{id} not found") := by
      simp [TasksService.findOne, hn]
    simp [TasksService.remove, he]
  · cases hfind : tasksFindById s.tasks id with
    | none =>
      have he : TasksService.findOne s id userId =
          .error (.notFound s!"Task #{id} not found") := by
        simp [TasksService.findOne, hfind]
      rw [he] at ht
      cases ht
    | some row =>
      have hrid : row.id = id := by
        simpa [tasksFindById] using List.find?_some hfind
      by_cases hb : row.userId = userId
      · have hok : TasksService.findOne s id userId =
            .ok (loadUserRelation s.users row) := by
          simp [TasksService.findOne, hfind, loadUserRelation, hb]
        rw [hok] at ht
        injection ht with ht
        subst ht
        have htid : (loadUserRelation s.users row).id = id := by
          simpa [loadUserRelation] using hrid
        refine ⟨{ s with tasks :=
            s.tasks.filter (fun r => r.id != (loadUserRelation s.users row).id) },
          ?_, ?_, ?_, rfl⟩
        · simp [TasksService.remove, hok, tasksDelete]
        · rw [tasksFindById, List.find?_eq_none]
          intro r hr habs
          rw [List.mem_filter] at hr
          have h1 : r.id ≠ (loadUserRelation s.users row).id := by
            simpa using hr.2
          exact h1 (by simpa [htid] using habs)
        · intro r
          simp [List.mem_filter, htid]
      · have he : TasksService.findOne s id userId =
            .error (.forbidden "You can only access your own tasks") := by
          simp [TasksService.findOne, hfind, loadUserRelation, hb]
        rw [he] at ht
        cases ht

theorem taskRemove_inherits_findOne_witness :
    TasksService.remove emptyStore 999 1 =
      .error (.notFound "Task #999 not found") :=
  (taskRemove_inherits_findOne emptyStore 999 1).2.1 rfl

/-! ## C9: findOne is a deterministic, effect-free read -/

/-- **C9**: `TasksService.findOne` performs no write, so in the
embedding it is a pure function of the store; with no intervening
mutation two successive calls read the same store and therefore produce
equal results — the same entity snapshot or the same error. -/
theorem taskFindOne_read_idempotent (s : Store) (id userId : Nat)
    (r1 r2 : Except AppError TaskEntity)
    (h1 : r1 = TasksService.findOne s id userId)
    (h2 : r2 = TasksService.findOne s id userId) : r1 = r2 :=
  h1.trans h2.symm

theorem taskFindOne_read_idempotent_witness :
    TasksService.findOne store7 1 7 = TasksService.findOne store7 1 7 :=
  taskFindOne_read_idempotent store7 1 7 _ _ rfl rfl

/-! ## C10: successful task reads carry the fully loaded owner -/

/-- A task entity carries its owner fully loaded: its `user` relation
holds a user that is a stored row (every field, the hashed password
included) whose id is the task's `userId`. -/
def HasLoadedOwner (s : Store) (t : TaskEntity) : Prop :=
  ∃ u, t.user = some u ∧ u ∈ s.users ∧ u.id = t.userId

/-- **C10**: on a store satisfying referential integrity (every task row's
`userId` matches some stored user — guaranteed by the foreign key), every
task returned by `TasksService.findOne` or `TasksService.findAll` carries
the full owning `User` entity under its `user` relation, not merely the
numeric `userId`. -/
theorem taskReads_load_full_user (s : Store)
    (hInt : ∀ row ∈ s.tasks, ∃ u ∈ s.users, u.id = row.userId) :
    (∀ id userId t, TasksService.findOne s id userId = .ok t →
      HasLoadedOwner s t) ∧
    (∀ userId t, t ∈ TasksService.findAll s userId → HasLoadedOwner s t) := by
  have key : ∀ row ∈ s.tasks, HasLoadedOwner s (loadUserRelation s.users row) := by
    intro row hrow
    obtain ⟨u0, hu0mem, hu0id⟩ := hInt row hrow
    have hsome : (s.users.find? (fun v => v.id == row.userId)).isSome := by
      rw [List.find?_isSome]
      exact ⟨u0, hu0mem, by simpa using hu0id⟩
    obtain ⟨u, hu⟩ := Option.isSome_iff_exists.mp hsome
    refine ⟨u, ?_, List.mem_of_find?_eq_some hu, ?_⟩
    · simpa [loadUserRelation, usersFindById] using hu
    · simpa [loadUserRelation] using List.find?_some hu
  constructor
  · intro id userId t ht
    cases hfind : tasksFindById s.tasks id with
    | none => simp [TasksService.findOne, hfind] at ht
    | some row =>
      by_cases hb : row.userId = userId
      · have : TasksService.findOne s id userId =
            .ok (loadUserRelation s.users row) := by
          simp [TasksService.findOne, hfind, loadUserRelation, hb]
        rw [this] at ht
        injection ht with ht
        exact ht ▸ key row (List.mem_of_find?_eq_some hfind)
      · simp [TasksService.findOne, hfind, loadUserRelation, hb] at ht
  · intro userId t ht
    simp [TasksService.findAll, tasksFindByUserId, List.mem_map,
      List.mem_filter] at ht
    obtain ⟨row, ⟨hrow, _⟩, heq⟩ := ht
    exact heq ▸ key row hrow

theorem taskReads_load_full_user_witness :
    HasLoadedOwner store7 (loadUserRelation store7.users milkRow) :=
  (taskReads_load_full_user store7 (by decide)).1 1 7
    (loadUserRelation store7.users milkRow) rfl

/-! ## Helper lemmas for the update path -/

theorem hashDtoPassword_fields (h : Hasher) (dto : UpdateUserDto) :
    (hashDtoPassword h dto).email = dto.email ∧
    (hashDtoPassword h dto).firstName = dto.firstName ∧
    (hashDtoPassword h dto).lastName = dto.lastName := by
  cases hdp : dto.password <;> simp [hashDtoPassword, hdp]
  split <;> simp

theorem hashDtoPassword_password_some (h : Hasher) (dto : UpdateUserDto)
    (p : String) (hp : dto.password = some p) (hne : p ≠ "") :
    (hashDtoPassword h dto).password = some (h.hash p) := by
  simp [hashDtoPassword, hp, hne]

theorem hashDtoPassword_password_none (h : Hasher) (dto : UpdateUserDto)
    (hp : dto.password = none) : (hashDtoPassword h dto).password = none := by
  simp [hashDtoPassword, hp]

theorem usersSave_found (s : Store) (u : User)
    (hs : s.users.any (fun v => v.id == u.id) = true) :
    usersSave s u =
      (u, { s with users := s.users.map (fun v => if v.id == u.id then u else v) }) := by
  simp [usersSave, hs]

theorem mem_usersSave (s : Store) (w u : User)
    (hu : u ∈ (usersSave s w).2.users) : u = w ∨ u ∈ s.users := by
  unfold usersSave at hu
  split at hu
  · simp only [List.mem_map] at hu
    obtain ⟨v, hv, hveq⟩ := hu
    by_cases hc : (v.id == w.id) = true
    · rw [if_pos hc] at hveq
      exact Or.inl hveq.symm
    · rw [if_neg hc] at hveq
      exact Or.inr (hveq ▸ hv)
  · simp only [List.mem_append, List.mem_singleton] at hu
    exact hu.symm.imp id id

theorem find?_replace_eq (l : List User) (i : Nat) (w : User)
    (hs : (l.find? (fun v => v.id == i)).isSome) (hw : w.id = i) :
    (l.map (fun v => if v.id == w.id then w else v)).find?
      (fun v => v.id == i) = some w := by
  induction l with
  | nil => simp at hs
  | cons a l ih =>
    by_cases ha : a.id = i
    · simp [List.find?, hw, ha]
    · have hne : (a.id == w.id) = false := by simp [hw, ha]
      have hne' : (a.id == i) = false := by simp [ha]
      have hs' : (l.find? (fun v => v.id == i)).isSome := by
        simpa [List.find?, hne'] using hs
      simpa [List.find?, hne, hne'] using ih hs'

/-! ## C4: UsersService.update semantics -/

/-- **C4** (amended): `UsersService.update(id, partial)` loads the
existing user with `findOne`'s NotFound semantics; re-hashes
`partial.password` whenever that field is present *and nonempty* (the
source guards the re-hash with JavaScript truthiness, so a present but
empty password is merged as-is rather than re-hashed); merges the
remaining supplied fields over the existing entity; persists the result
under the same id; and returns the updated entity. -/
theorem userUpdate_merge_rehash (h : Hasher) (s : Store) (id : Nat)
    (dto : UpdateUserDto) :
    (usersFindById s.users id = none →
      UsersService.update h s id dto =
        .error (.notFound s!"User #{id} not found")) ∧
    (∀ u, usersFindById s.users id = some u →
      ∃ u' s', UsersService.update h s id dto = .ok (u', s') ∧
        u'.id = u.id ∧
        u'.email = dto.email.getD u.email ∧
        u'.firstName = dto.firstName.getD u.firstName ∧
        u'.lastName = dto.lastName.getD u.lastName ∧
        (∀ p, dto.password = some p → p ≠ "" → u'.password = h.hash p) ∧
        (dto.password = none → u'.password = u.password) ∧
        usersFindById s'.users u.id = some u' ∧
        u' ∈ s'.users) := by
  constructor
  · intro habs
    simp [UsersService.update, UsersService.findOne, habs]
  · intro u hu
    have hid : u.id = id := by
      simpa [usersFindById] using List.find?_some hu
    have hok : UsersService.findOne s id = .ok u := by
      simp [UsersService.findOne, hu]
    have hmid : (mergeUser u (hashDtoPassword h dto)).id = u.id := rfl
    have hu2 : s.users.find? (fun v => v.id == u.id) = some u := by
      rw [show (fun v : User => v.id == u.id) = (fun v : User => v.id == id) from
        by funext v; rw [hid]]
      exact hu
    have hany : s.users.any
        (fun v => v.id == (mergeUser u (hashDtoPassword h dto)).id) = true := by
      rw [List.any_eq_true]
      exact ⟨u, List.mem_of_find?_eq_some hu2, by simp [hmid]⟩
    have hsave := usersSave_found s (mergeUser u (hashDtoPassword h dto)) hany
    have hfind' : usersFindById
        ({ s with users := s.users.map (fun v : User =>
            if v.id == (mergeUser u (hashDtoPassword h dto)).id
            then mergeUser u (hashDtoPassword h dto) else v) }).users u.id =
        some (mergeUser u (hashDtoPassword h dto)) := by
      rw [usersFindById]
      exact find?_replace_eq s.users u.id (mergeUser u (hashDtoPassword h dto))
        (by rw [hu2]; rfl) hmid
    refine ⟨mergeUser u (hashDtoPassword h dto), _, ?_, hmid, ?_, ?_, ?_,
      ?_, ?_, hfind', List.mem_of_find?_eq_some hfind'⟩
    · simp [UsersService.update, hok, hsave]
    · simp [mergeUser, (hashDtoPassword_fields h dto).1]
    · simp [mergeUser, (hashDtoPassword_fields h dto).2.1]
    · simp [mergeUser, (hashDtoPassword_fields h dto).2.2]
    · intro p hp hne
      simp [mergeUser, hashDtoPassword_password_some h dto p hp hne]
    · intro hp
      simp [mergeUser, hashDtoPassword_password_none h dto hp]

/-- The store after registering `cDto` through the service. -/
def demoStore1 : Store := (UsersService.create demoHasher emptyStore cDto).2

/-- An update body whose password field is present but empty. -/
def emptyPwDto : UpdateUserDto := { password := some "" }

/-- **C4 counterexample**: updating user 1 of `demoStore1` with a
present-but-empty password persists the password `""` exactly as
submitted — it is *not* re-hashed (`demoHasher.hash "" ≠ ""`), refuting
"re-hashes partial.password whenever that field is present". -/
theorem userUpdate_empty_password_cex :
    UsersService.update demoHasher demoStore1 1 emptyPwDto =
      .ok ({ id := 1, email := "a@b.com", password := "",
             firstName := "A", lastName := "B" },
        { users := [{ id := 1, email := "a@b.com", password := "",
                      firstName := "A", lastName := "B" }],
          tasks := [], nextUserId := 2, nextTaskId := 1 }) ∧
    demoHasher.hash "" ≠ "" :=
  ⟨rfl, by decide⟩

theorem userUpdate_merge_rehash_witness :
    UsersService.update demoHasher demoStore1 99 {} =
      .error (.notFound "User #99 not found") :=
  (userUpdate_merge_rehash demoHasher demoStore1 99 {}).1 rfl

/-! ## C3: persisted passwords across create/update sequences -/

/-- An API-level call into `UsersService` that can persist a password. -/
inductive UserOp where
  | createOp (dto : CreateUserDto)
  | updateOp (id : Nat) (dto : UpdateUserDto)

/-- Run a sequence of user operations left to right; a thrown error
leaves the store unchanged (the exception aborts the request before any
write happens). -/
def runUserOps (h : Hasher) (s : Store) : List UserOp → Store
  | [] => s
  | UserOp.createOp dto :: rest =>
      runUserOps h (UsersService.create h s dto).2 rest
  | UserOp.updateOp id dto :: rest =>
      runUserOps h (stateAfter s (UsersService.update h s id dto)) rest

/-- An operation whose submitted password, if any, is nonempty (the
empty-string password is what the dto validation rules reject
upstream). -/
def NonemptyPwOp : UserOp → Prop
  | .createOp _ => True
  | .updateOp _ dto => dto.password ≠ some ""

/-- A stored password is the hasher's image of some submitted plaintext
and differs from that plaintext. -/
def IsHashed (h : Hasher) (pw : String) : Prop :=
  ∃ p, pw = h.hash p ∧ pw ≠ p

theorem create_preserves_hashed (h : Hasher) (s : Store) (dto : CreateUserDto)
    (hs : ∀ u ∈ s.users, ∃ p, u.password = h.hash p) :
    ∀ u ∈ (UsersService.create h s dto).2.users, ∃ p, u.password = h.hash p := by
  intro u hu
  simp only [UsersService.create, usersInsert, List.mem_append,
    List.mem_singleton] at hu
  rcases hu with hu | hu
  · exact hs u hu
  · exact ⟨dto.password, by rw [hu]⟩

theorem update_preserves_hashed (h : Hasher) (s : Store) (id : Nat)
    (dto : UpdateUserDto) (hgood : dto.password ≠ some "")
    (hs : ∀ u ∈ s.users, ∃ p, u.password = h.hash p) :
    ∀ u ∈ (stateAfter s (UsersService.update h s id dto)).users,
      ∃ p, u.password = h.hash p := by
  cases hfind : usersFindById s.users id with
  | none =>
    have herr : UsersService.update h s id dto =
        .error (.notFound s!"User #{id} not found") := by
      simp [UsersService.update, UsersService.findOne, hfind]
    simpa [stateAfter, herr] using hs
  | some u0 =>
    have hok : UsersService.findOne s id = .ok u0 := by
      simp [UsersService.findOne, hfind]
    have hupd : UsersService.update h s id dto =
        .ok (usersSave s (mergeUser u0 (hashDtoPassword h dto))) := by
      simp [UsersService.update, hok]
    intro u hu
    rw [show stateAfter s (UsersService.update h s id dto) =
        (usersSave s (mergeUser u0 (hashDtoPassword h dto))).2 from
      by rw [hupd]; rfl] at hu
    rcases mem_usersSave s (mergeUser u0 (hashDtoPassword h dto)) u hu with
      rfl | hmem
    · cases hp : dto.password with
      | none =>
        obtain ⟨p, hp0⟩ := hs u0 (List.mem_of_find?_eq_some hfind)
        refine ⟨p, ?_⟩
        rw [show (mergeUser u0 (hashDtoPassword h dto)).password =
            (hashDtoPassword h dto).password.getD u0.password from rfl,
          hashDtoPassword_password_none h dto hp]
        exact hp0
      | some p =>
        have hpne : p ≠ "" := fun he => hgood (by rw [hp, he])
        refine ⟨p, ?_⟩
        rw [show (mergeUser u0 (hashDtoPassword h dto)).password =
            (hashDtoPassword h dto).password.getD u0.password from rfl,
          hashDtoPassword_password_some h dto p hp hpne]
        rfl
    · exact hs u hmem

/-- **C3** (amended): across every sequence of `UsersService.create` and
`UsersService.update` operations in which every submitted update
password is nonempty (create hashes unconditionally; update's
truthiness guard skips the empty string, which upstream validation
rejects), every persisted user's password is the hash of the plaintext
submitted for it and never that original plaintext — given the hasher's
one-way contract and starting from a store all of whose passwords are
already hashes. -/
theorem userPasswords_never_plaintext (h : Hasher) (ops : List UserOp)
    (s : Store) (hOneWay : ∀ p, h.hash p ≠ p)
    (hInit : ∀ u ∈ s.users, ∃ p, u.password = h.hash p)
    (hGood : ∀ op ∈ ops, NonemptyPwOp op) :
    ∀ u ∈ (runUserOps h s ops).users, IsHashed h u.password := by
  revert hInit hGood
  induction ops generalizing s with
  | nil =>
    intro hInit _ u hu
    obtain ⟨p, hp⟩ := hInit u hu
    exact ⟨p, hp, hp ▸ hOneWay p⟩
  | cons op rest ih =>
    intro hInit hGood
    cases op with
    | createOp dto =>
      exact ih _ (create_preserves_hashed h s dto hInit)
        (fun o ho => hGood o (List.mem_cons_of_mem _ ho))
    | updateOp id dto =>
      have hg : dto.password ≠ some "" := hGood _ (List.mem_cons_self _ _)
      exact ih _ (update_preserves_hashed h s id dto hg hInit)
        (fun o ho => hGood o (List.mem_cons_of_mem _ ho))

/-- **C3 counterexample**: register a user (password `"secret1"`), then
update it submitting the plaintext password `""`. The persisted password
is exactly the submitted plaintext `""` — `update` did not store a hash
for this submitted password — refuting the claim for arbitrary submitted
passwords. -/
theorem userPasswords_plaintext_cex :
    (runUserOps demoHasher emptyStore
        [UserOp.createOp cDto, UserOp.updateOp 1 emptyPwDto]).users =
      [{ id := 1, email := "a@b.com", password := "",
         firstName := "A", lastName := "B" }] ∧
    emptyPwDto.password = some "" :=
  ⟨rfl, rfl⟩

/-- The user persisted by registering `cDto` into the empty store. -/
def demoStoredUser : User :=
  { id := 1, email := "a@b.com", password := "$2b$10$secret1",
    firstName := "A", lastName := "B" }

theorem userPasswords_never_plaintext_witness :
    IsHashed demoHasher demoStoredUser.password :=
  userPasswords_never_plaintext demoHasher [UserOp.createOp cDto] emptyStore
    demoHasher_hash_ne (by intro u hu; simp [emptyStore] at hu)
    (by intro op hop
        simp only [List.mem_singleton] at hop
        rw [hop]
        trivial)
    demoStoredUser (by decide)
